import Mathlib

/-!
Shallow embedding of the `errs` Go package (github.com/valensto/errs):
structured errors that carry a classification slug, a wrapped cause, free-form
detail text and a string-keyed parameter map, together with the extraction
functions and the HTTP transport mapping from `http.go`.

Modelling conventions:
* Go `error` interface values are `Option GoError` (`none` is the nil error);
  `GoError` is an inductive covering every dynamic error type the package can
  encounter: an `errs.Err` value, a bare slug used as an error, the wrappers
  produced by `fmt.Errorf` with `%w` verbs, the two error types of the
  validator collaborator, and an opaque leaf error.
* Go maps (`Params`, i.e. `map[string]string`) are reference values, so the
  parameter field of an `Err` is an optional address into an explicit heap of
  association lists; operations that can touch a map thread the heap.
* `errors.As` is modelled by a chain walk (`findErrG`) that matches the first
  value of concrete type `Err` reachable through `Unwrap`; `Err` itself has no
  `Unwrap` method, so the walk does not descend into an `Err`'s cause field.
-/

set_option autoImplicit false

namespace Errs

/-- The concrete slug types of `slug.go`. Each named string type (`NotFound`,
`Invalid`, ...) is one tag here; the carried string is kept separately in
`SlugV`. `badRequestT` models the `BadRequest` slug type: it is referenced by
`http.go` and the README (`errs.BadRequest = "phone_invalid"`) but its
declaration is not under `src/`. Modelled from the spec: §4.4 places
`Invalid/BadRequest` in one category of string-backed slug types. -/
inductive SlugType where
  | notFoundT
  | duplicateT
  | invalidT
  | forbiddenT
  | unauthorizedT
  | notImplementedT
  | internalT
  | unknownT
  | badRequestT
  deriving DecidableEq, Repr

/-- A slug value: a concrete slug type together with its string identifier
(the `slug` string underlying each named type in `slug.go`). Its `Error()`
method returns the string itself. -/
structure SlugV where
  ty : SlugType
  str : String
  deriving DecidableEq, Repr

def slugUnknownV : SlugV := ⟨.unknownT, "unknown"⟩
def slugNotFoundV : SlugV := ⟨.notFoundT, "not-found"⟩
def slugInvalidV : SlugV := ⟨.invalidT, "request-invalid"⟩
def slugUnauthorizedV : SlugV := ⟨.unauthorizedT, "unauthorized"⟩
def slugForbiddenV : SlugV := ⟨.forbiddenT, "forbidden"⟩
def slugDuplicateV : SlugV := ⟨.duplicateT, "already-exists"⟩
def slugNotImplementedV : SlugV := ⟨.notImplementedT, "not-implemented"⟩
def slugInternalV : SlugV := ⟨.internalT, "internal-error"⟩

/-- One field failure inside `validator.ValidationErrors`: the struct field
name, the library's default message (`err.Error()`), as consumed by
`NewFromValidator`. -/
structure FieldError where
  field : String
  defaultMsg : String
  deriving DecidableEq, Repr

/-- Association-list representation of a Go `map[string]string` content. -/
abbrev PMap := List (String × String)

/-- The heap of parameter maps: Go maps are reference values, so an `Err`
stores an optional address into this heap. -/
abbrev Heap := List PMap

/-- Dynamic error values, covering every concrete type that can sit in an
`error` interface in this package's code paths. -/
inductive GoError where
  /-- An `errs.Err` struct value (fields `slug`, `error`, `details`, `params`
  in source order; `params` is an optional heap address since Go maps are
  references). -/
  | errE (slug : Option SlugV) (cause : Option GoError) (details : String)
      (params : Option Nat)
  /-- A bare slug used as an `error` (e.g. `New` sets `error: slug`). -/
  | slugErr (s : SlugV)
  /-- A single-`%w` wrapper, `fmt.Errorf("<pre>: %w", inner)`: message is the
  static text joined to the inner message, `Unwrap` returns `inner`. -/
  | wrapf (pre : String) (inner : GoError)
  /-- A double-`%w` wrapper, `fmt.Errorf("%w: %w", a, b)` as produced by
  `Err.WithError`; `Unwrap() []error` returns `[a, b]`. -/
  | wrap2 (a b : GoError)
  /-- `fmt.Errorf("%w: %w", nil, b)`: the nil operand is not wrapped, so
  `Unwrap` only reaches `b`; the nil renders as `%!w(<nil>)` in the text. -/
  | wrapNilLeft (b : GoError)
  /-- A `*validator.InvalidValidationError` (no `Unwrap` method). -/
  | invalidValidationE (msg : String)
  /-- A `validator.ValidationErrors` value (a slice of field errors, no
  `Unwrap` method). -/
  | validationErrorsE (fs : List FieldError)
  /-- Any other opaque error with no `Unwrap` method. -/
  | leaf (msg : String)
  deriving Repr

/-- The `Err` struct of the package, mirrored outside `GoError` for use as the
return type of `getErr`, `New`, etc. -/
structure ErrV where
  slug : Option SlugV
  cause : Option GoError
  details : String
  params : Option Nat
  deriving Repr

/-- View an `Err` struct value as a dynamic error value. -/
def ErrV.toErr (e : ErrV) : GoError :=
  .errE e.slug e.cause e.details e.params

/-- `errors.As(err, &e)` with `e` of type `Err`: walk the unwrap chain
depth-first and return the first value whose concrete type is `Err`. Slugs,
validator errors and leaves have no `Unwrap` method, and `Err` itself exposes
no `Unwrap`, so the walk stops there. -/
def findErrG : GoError → Option ErrV
  | .errE s c d p => some ⟨s, c, d, p⟩
  | .slugErr _ => none
  | .wrapf _ inner => findErrG inner
  | .wrap2 a b =>
    match findErrG a with
    | some e => some e
    | none => findErrG b
  | .wrapNilLeft b => findErrG b
  | .invalidValidationE _ => none
  | .validationErrorsE _ => none
  | .leaf _ => none

/-- `errors.As` on a possibly-nil error: `errors.As(nil, target)` is false. -/
def findErr : Option GoError → Option ErrV
  | none => none
  | some g => findErrG g

/-- `getErr` (bottom of the main source file): normalize any error to an
`Err`; a non-match is wrapped as `Err{slug: SlugUnknown, error: err}`. -/
def getErr (err : Option GoError) : ErrV :=
  match findErr err with
  | some e => e
  | none => ⟨some slugUnknownV, err, "", none⟩

/-- `New(slug, details...)`: cause is the slug itself, details joined with
`": "` (`strings.Join`). -/
def New (s : SlugV) (details : List String) : ErrV :=
  ⟨some s, some (.slugErr s), String.intercalate ": " details, none⟩

/-- `NewFromError(err)`: delegates to `getErr`. -/
def NewFromError (err : Option GoError) : ErrV :=
  getErr err

/-- `SlugFromErr(err)`: the found `Err`'s slug field (which may itself be a
nil `Slug`), else the `SlugUnknown` fallback. -/
def SlugFromErr (err : Option GoError) : Option SlugV :=
  match findErr err with
  | some e => e.slug
  | none => some slugUnknownV

/-- `DetailFromErr(err)`: the found `Err`'s details, else the literal
fallback text. -/
def DetailFromErr (err : Option GoError) : String :=
  match findErr err with
  | some e => e.details
  | none => "unknown error"

/-- `ParamsFromErr(err)`: the found `Err`'s params map reference (possibly a
nil map), else nil. -/
def ParamsFromErr (err : Option GoError) : Option Nat :=
  match findErr err with
  | some e => e.params
  | none => none

/-- Dereference a map address: the content of the map an `Err` points at; a
nil map reads as empty. -/
def paramsContent (h : Heap) (p : Option Nat) : PMap :=
  match p with
  | none => []
  | some a => h.getD a []

/-- Go map assignment `m[k] = v`: overwrite the entry if the key exists,
otherwise append it. -/
def pmapSet (m : PMap) (k v : String) : PMap :=
  if m.any (fun q => q.1 == k) then
    m.map (fun q => if q.1 == k then (k, v) else q)
  else
    m ++ [(k, v)]

/-- `for k, v := range src { m[k] = v }`. -/
def pmapMerge (m : PMap) (src : List (String × String)) : PMap :=
  src.foldl (fun acc q => pmapSet acc q.1 q.2) m

/-- Lookup `m[k]`. -/
def pmapLookup (m : PMap) (k : String) : Option String :=
  (m.find? (fun q => q.1 == k)).map (fun q => q.2)

/-- `Err.WithParams` (value receiver): if the receiver copy's map is nil a
fresh map is allocated for the copy; otherwise the entries are written into
the receiver's own (shared) map through the alias held by the copy. -/
def ErrV.WithParams (e : ErrV) (h : Heap) (src : List (String × String)) :
    ErrV × Heap :=
  match e.params with
  | none => (⟨e.slug, e.cause, e.details, some h.length⟩, h ++ [pmapMerge [] src])
  | some a => (e, h.set a (pmapMerge (h.getD a []) src))

/-- `Err.WithDetails`: `e.details = fmt.Sprintf("%s: %s", e.details, d)` on
the copy. -/
def ErrV.WithDetails (e : ErrV) (d : String) : ErrV :=
  ⟨e.slug, e.cause, e.details ++ ": " ++ d, e.params⟩

/-- `Err.WithError`: `e.error = fmt.Errorf("%w: %w", e.error, err)` on the
copy (callers pass a non-nil `err`). -/
def ErrV.WithError (e : ErrV) (err : GoError) : ErrV :=
  ⟨e.slug,
   some (match e.cause with
         | some c => GoError.wrap2 c err
         | none => GoError.wrapNilLeft err),
   e.details, e.params⟩

/-- `Error()` rendering of a dynamic error value. `none` models a panic:
calling `Error()` on an `Err` whose `error` field is nil dereferences nil.
(`fmt` would render a nil `%w` operand as the text `%!w(<nil>)` and recovers
a panicking operand; no theorem below depends on those branches.) -/
def goMsg : GoError → Option String
  | .errE _ none _ _ => none
  | .errE _ (some c) d _ =>
    (goMsg c).map (fun m => if d = "" then m else m ++ ": " ++ d)
  | .slugErr s => some s.str
  | .wrapf pre inner => (goMsg inner).map (fun m => pre ++ ": " ++ m)
  | .wrap2 a b =>
    match goMsg a, goMsg b with
    | some ma, some mb => some (ma ++ ": " ++ mb)
    | _, _ => none
  | .wrapNilLeft b => (goMsg b).map (fun m => "%!w(<nil>): " ++ m)
  | .invalidValidationE m => some m
  | .validationErrorsE fs =>
    some (String.intercalate "\n" (fs.map (fun fe => fe.defaultMsg)))
  | .leaf m => some m

/-- `Err.Error()`: the cause's message alone when `details` is empty, else
joined with `": "`; panics (`none`) when the cause is nil. -/
def ErrV.Error (e : ErrV) : Option String :=
  goMsg e.toErr

/-- The `errorMap` literal of `HTTPStatus` in `http.go`: six typed-nil slug
pointers mapped to status codes. Go randomizes map iteration, so `HTTPStatus`
below is parametrized by the iteration order, an arbitrary permutation of
these entries. -/
def goErrorMap : List (SlugType × Nat) :=
  [(.notFoundT, 404), (.badRequestT, 400), (.unauthorizedT, 401),
   (.forbiddenT, 403), (.duplicateT, 409), (.notImplementedT, 501)]

/-- `errors.As(e.slug, &errType)` inside the loop of `HTTPStatus`. `errType`
is the range variable over `map[error]int`, so its static type is the `error`
interface itself and the target is a `*error`: `errors.As` then matches the
very first error of the chain — any non-nil `e.slug` — whatever entry the
iteration is at. A nil slug never matches (`errors.As(nil, target)` is
false). -/
def errorsAsSlugIntoErrorIface (s : Option SlugV) (_entry : SlugType × Nat) :
    Bool :=
  s.isSome

/-- `HTTPStatus(err)` of `http.go`, parametrized by the randomized iteration
order of `errorMap`: normalize with `getErr`, then return the status of the
first entry for which the `errors.As` call reports a match, defaulting to
`http.StatusInternalServerError` (500). -/
def HTTPStatus (order : List (SlugType × Nat)) (err : Option GoError) : Nat :=
  let e := getErr err
  match order.find? (errorsAsSlugIntoErrorIface e.slug) with
  | some entry => entry.2
  | none => 500

/-- The `BlankType` constant, `"about:blank"` (RFC 9457 generic type). -/
def BlankType : String := "about:blank"

/-- The values stored in the `map[string]any` built by `ProblemJSON`. -/
inductive JVal where
  | ofType (t : String)
  | ofSlug (s : Option SlugV)
  | ofNat (n : Nat)
  | ofStr (s : String)
  | ofParams (p : PMap)
  deriving Repr

/-- Key presence in the built `map[string]any` (keys are pairwise distinct in
`ProblemJSON`, so an association list is a faithful model). -/
def mapContainsKey (m : List (String × JVal)) (k : String) : Bool :=
  m.any (fun q => q.1 == k)

/-- Value lookup in the built `map[string]any`. -/
def mapLookup (m : List (String × JVal)) (k : String) : Option JVal :=
  (m.find? (fun q => q.1 == k)).map (fun q => q.2)

/-- `ProblemJSON(err, instance, pbType...)` of `http.go`: the base map always
holds `type`, `title`, `status`, `instance`; `detail` is added only when the
extracted detail is non-empty and `params` only when `len(params) > 0`. The
variadic `pbType` is a list; the default type is `BlankType`. The heap is
threaded to read the parameter map's content, and the map iteration order
parametrizes the embedded `HTTPStatus` call. -/
def ProblemJSON (order : List (SlugType × Nat)) (h : Heap)
    (err : Option GoError) (inst : String) (pbType : List String) :
    List (String × JVal) :=
  let code := HTTPStatus order err
  let slug := SlugFromErr err
  let detail := DetailFromErr err
  let params := ParamsFromErr err
  let t := match pbType with
    | [] => BlankType
    | x :: _ => x
  let base := [("type", JVal.ofType t), ("title", JVal.ofSlug slug),
               ("status", JVal.ofNat code), ("instance", JVal.ofStr inst)]
  let withDetail := if detail = "" then base else
    base ++ [("detail", JVal.ofStr detail)]
  if 0 < (paramsContent h params).length then
    withDetail ++ [("params", JVal.ofParams (paramsContent h params))]
  else
    withDetail

/-- `errors.As(err, &invalidValidationError)` in `NewFromValidator`: walk the
unwrap chain for a `*validator.InvalidValidationError`. -/
def asInvalidValidation : GoError → Bool
  | .invalidValidationE _ => true
  | .wrapf _ inner => asInvalidValidation inner
  | .wrap2 a b => asInvalidValidation a || asInvalidValidation b
  | .wrapNilLeft b => asInvalidValidation b
  | _ => false

/-- Whether the error interface value's dynamic type is
`*validator.InvalidValidationError` itself (top level, no unwrapping). -/
def topIsInvalidValidationVal : Option GoError → Bool
  | some (.invalidValidationE _) => true
  | _ => false

/-- `errors.As` for `*validator.InvalidValidationError` on a possibly-nil
error value. -/
def asInvalidValidationO : Option GoError → Bool
  | none => false
  | some g => asInvalidValidation g

/-- Whether the error interface value's dynamic type is
`validator.ValidationErrors` itself (top level, no unwrapping) — what the
unchecked type assertion `err.(validator.ValidationErrors)` requires. -/
def topIsValidationErrorsVal : Option GoError → Bool
  | some (.validationErrorsE _) => true
  | _ => false

/-- `NewFromValidator(err, translator)`: if a
`*validator.InvalidValidationError` is found in the chain, return
`Err{slug: SlugInvalid, error: err}`. Otherwise the unchecked type assertion
`err.(validator.ValidationErrors)` runs: `none` models the panic when the
dynamic type is not `ValidationErrors`. On success the field errors are folded
into the params map via `Params.Add` (which allocates the map on the first
add, so an empty slice leaves `params` nil); each key is the lower-cased
field name, each value the translated message when a translator is supplied,
else the library's default `Error()` text. -/
def NewFromValidator (err : Option GoError)
    (translator : Option (FieldError → String)) (h : Heap) :
    Option (ErrV × Heap) :=
  if asInvalidValidationO err then
    some (⟨some slugInvalidV, err, "", none⟩, h)
  else
    match err with
    | some (.validationErrorsE fs) =>
      if fs.isEmpty then
        some (⟨some slugInvalidV, err, "", none⟩, h)
      else
        some (⟨some slugInvalidV, err, "", some h.length⟩,
              h ++ [fs.foldl
                (fun acc fe =>
                  pmapSet acc fe.field.toLower
                    (match translator with
                     | some tr => tr fe
                     | none => fe.defaultMsg)) []])
    | _ => none

/-- Whether a Typed Error (`Err`) exists anywhere in the unwrap chain of a
dynamic error value: at the top, or below any of the `fmt.Errorf` wrappers. -/
def containsErr : GoError → Bool
  | .errE .. => true
  | .wrapf _ inner => containsErr inner
  | .wrap2 a b => containsErr a || containsErr b
  | .wrapNilLeft b => containsErr b
  | .slugErr _ => false
  | .invalidValidationE _ => false
  | .validationErrorsE _ => false
  | .leaf _ => false

/-! ## Supporting lemmas -/

/-- The chain walk of `errors.As` succeeds on every chain that holds an
`Err` somewhere. -/
theorem findErrG_isSome_of_containsErr :
    ∀ g : GoError, containsErr g = true → (findErrG g).isSome = true
  | .errE _ _ _ _ => fun _ => rfl
  | .slugErr _ => fun h => by simp [containsErr] at h
  | .wrapf _ inner => fun h => by
    have := findErrG_isSome_of_containsErr inner
      (by simpa [containsErr] using h)
    simpa [findErrG] using this
  | .wrap2 a b => fun h => by
    cases hfa : findErrG a with
    | some e => simp [findErrG, hfa]
    | none =>
      have hca : containsErr a = false := by
        cases hc : containsErr a
        · rfl
        · have := findErrG_isSome_of_containsErr a hc
          rw [hfa] at this
          simp at this
      have hcb : containsErr b = true := by
        simp [containsErr, hca] at h
        exact h
      have := findErrG_isSome_of_containsErr b hcb
      simpa [findErrG, hfa] using this
  | .wrapNilLeft b => fun h => by
    have := findErrG_isSome_of_containsErr b (by simpa [containsErr] using h)
    simpa [findErrG] using this
  | .invalidValidationE _ => fun h => by simp [containsErr] at h
  | .validationErrorsE _ => fun h => by simp [containsErr] at h
  | .leaf _ => fun h => by simp [containsErr] at h

/-- The chain walk applied to an `Err` value itself matches immediately. -/
theorem findErrG_toErr (e : ErrV) : findErrG e.toErr = some e := by
  cases e
  rfl

/-- No status in the `errorMap` literal is 500. -/
theorem goErrorMap_no_500 : ∀ p ∈ goErrorMap, p.2 ≠ 500 := by decide

/-- No status in the `errorMap` literal is 200. -/
theorem goErrorMap_no_200 : ∀ p ∈ goErrorMap, p.2 ≠ 200 := by decide

/-- Whenever the normalized error's slug is non-nil, `HTTPStatus` under a
non-empty iteration order returns the status of the order's first entry: the
`errors.As` call into the `error`-interface range variable matches
immediately. -/
theorem HTTPStatus_head (a : SlugType × Nat) (as : List (SlugType × Nat))
    (err : Option GoError) (hs : (getErr err).slug.isSome = true) :
    HTTPStatus (a :: as) err = a.2 := by
  simp [HTTPStatus, List.find?, errorsAsSlugIntoErrorIface, hs]

/-- A permutation of the six-entry `errorMap` is non-empty. -/
theorem perm_goErrorMap_ne_nil (order : List (SlugType × Nat))
    (hperm : order.Perm goErrorMap) : order ≠ [] := by
  intro h
  subst h
  exact absurd hperm.length_eq (by decide)

/-! ## Claims -/

/-- C1. The claim states that for each built-in classification `c`,
`HTTPStatus(New(c))` equals the fixed table (internal-error ↦ 500, etc.).
The code refutes it: inside the loop the `errors.As(e.slug, &errType)` target
is the `error` interface (the `map[error]int` range variable), so it matches
any non-nil slug at the first iterated entry, and `HTTPStatus(New(SlugInternal))`
returns the status of whichever entry Go's randomized map iteration yields
first — one of {404, 400, 401, 403, 409, 501}, never the 500 the table (and
the repository's own `TestHTTPStatus`) demands. -/
theorem HTTPStatus_internal_never_500 (order : List (SlugType × Nat))
    (hperm : order.Perm goErrorMap) :
    HTTPStatus order (some ((New slugInternalV []).toErr)) ≠ 500 := by
  obtain ⟨a, as, rfl⟩ :=
    List.exists_cons_of_ne_nil (perm_goErrorMap_ne_nil order hperm)
  have ha : a ∈ goErrorMap := hperm.mem_iff.mp (List.mem_cons_self a as)
  rw [HTTPStatus_head a as _ (by rfl)]
  exact goErrorMap_no_500 a ha

/-- C1 witness: at the source order of the map literal, the internal-error
classification does not map to 500 (it maps to 404 there). -/
theorem HTTPStatus_internal_never_500_witness :
    HTTPStatus goErrorMap (some ((New slugInternalV []).toErr)) ≠ 500 :=
  HTTPStatus_internal_never_500 goErrorMap (List.Perm.refl _)

/-- C2. The claim states `HTTPStatus(nil) = 200`. The code refutes it: there
is no nil special case and no 200 in `HTTPStatus`; `getErr(nil)` yields
`Err{slug: SlugUnknown}`, whose non-nil slug matches the first randomly
iterated map entry, so the result is one of {404, 400, 401, 403, 409, 501} —
never the 200 asserted by the spec and by the repository's own test. -/
theorem HTTPStatus_nil_never_200 (order : List (SlugType × Nat))
    (hperm : order.Perm goErrorMap) : HTTPStatus order none ≠ 200 := by
  obtain ⟨a, as, rfl⟩ :=
    List.exists_cons_of_ne_nil (perm_goErrorMap_ne_nil order hperm)
  have ha : a ∈ goErrorMap := hperm.mem_iff.mp (List.mem_cons_self a as)
  rw [HTTPStatus_head a as _ (by rfl)]
  exact goErrorMap_no_200 a ha

/-- C2 witness: at the source order of the map literal, the nil error maps to
404, not 200. -/
theorem HTTPStatus_nil_never_200_witness : HTTPStatus goErrorMap none ≠ 200 :=
  HTTPStatus_nil_never_200 goErrorMap (List.Perm.refl _)

/-- An alternative iteration order of the same map, with the unauthorized
entry first. -/
def goErrorMapAuthFirst : List (SlugType × Nat) :=
  [(.unauthorizedT, 401), (.notFoundT, 404), (.badRequestT, 400),
   (.forbiddenT, 403), (.duplicateT, 409), (.notImplementedT, 501)]

/-- C3. The claim states `HTTPStatus` is deterministic in its input. The code
refutes it: the result depends on the randomized iteration order of the
`errorMap` literal — two legitimate orders of the same six entries send the
same error `New(SlugNotFound)` to 404 and to 401 respectively. -/
theorem HTTPStatus_nondeterministic :
    HTTPStatus goErrorMap (some ((New slugNotFoundV []).toErr)) = 404 ∧
    HTTPStatus goErrorMapAuthFirst (some ((New slugNotFoundV []).toErr)) = 401 ∧
    goErrorMapAuthFirst.Perm goErrorMap :=
  ⟨rfl, rfl, by decide⟩

/-- The scenario for C4: `e := New(SlugInvalid).WithParams({"a": "1"})` on an
empty heap — an `Err` holding a non-nil parameter map. -/
def c4Step1 : ErrV × Heap := (New slugInvalidV []).WithParams [] [("a", "1")]

/-- Further enrichment of the same value:
`e2 := e.WithParams({"b": "2"})`. -/
def c4Step2 : ErrV × Heap := c4Step1.1.WithParams c4Step1.2 [("b", "2")]

/-- C4 counterexample. The claim states every enrichment leaves the
receiver's observable state — in particular its parameter entries —
unchanged. It fails for `WithParams` on a receiver that already holds a
non-nil map: the value receiver copies the struct but aliases the map, so the
merge writes through it. Concretely, after `e2 := e.WithParams({"b": "2"})`
the receiver `e`'s own parameter entries gained the key `"b"` (they were
`[("a","1")]` before). -/
theorem WithParams_mutates_receiver_counterexample :
    paramsContent c4Step1.2 c4Step1.1.params = [("a", "1")] ∧
    paramsContent c4Step2.2 c4Step1.1.params = [("a", "1"), ("b", "2")] := by
  decide

/-- C4 amended: `WithError` and `WithDetails` build the result purely from
the receiver copy and never touch the parameter heap, so the receiver's
observable state is unchanged; `WithParams` always preserves the receiver's
classification, cause and detail, and preserves the receiver's (empty)
observable parameters when its map is nil — but when the receiver already
holds a non-nil map at address `a`, the merge writes the supplied entries
into that shared map. -/
theorem enrichment_receiver_frame (e : ErrV) (h : Heap)
    (src : List (String × String)) (d : String) (g : GoError) :
    ((e.WithError g).slug = e.slug ∧ (e.WithError g).details = e.details ∧
      (e.WithError g).params = e.params) ∧
    ((e.WithDetails d).slug = e.slug ∧ (e.WithDetails d).cause = e.cause ∧
      (e.WithDetails d).params = e.params) ∧
    ((e.WithParams h src).1.slug = e.slug ∧
      (e.WithParams h src).1.cause = e.cause ∧
      (e.WithParams h src).1.details = e.details) ∧
    (e.params = none →
      paramsContent (e.WithParams h src).2 e.params =
        paramsContent h e.params) ∧
    (∀ a, e.params = some a → a < h.length →
      (e.WithParams h src).2.getD a [] = pmapMerge (h.getD a []) src) := by
  refine ⟨⟨rfl, rfl, rfl⟩, ⟨rfl, rfl, rfl⟩, ?_, ?_, ?_⟩
  · cases hp : e.params <;>
      simp [ErrV.WithParams, hp]
  · intro hp
    simp [ErrV.WithParams, hp, paramsContent]
  · intro a hp hlt
    simp [ErrV.WithParams, hp, List.getD_eq_getElem?_getD, List.getElem?_set,
      hlt]

/-- C4 amended witness: the frame theorem applied at a fresh error with a nil
map (discharging the nil-map hypothesis) and at the aliased scenario
(discharging the non-nil-map hypothesis). -/
theorem enrichment_receiver_frame_witness :
    paramsContent
        ((New slugInvalidV []).WithParams [] [("a", "1")]).2
        (New slugInvalidV []).params =
      paramsContent [] (New slugInvalidV []).params ∧
    (c4Step1.1.WithParams c4Step1.2 [("b", "2")]).2.getD 0 [] =
      pmapMerge (c4Step1.2.getD 0 []) [("b", "2")] :=
  ⟨(enrichment_receiver_frame (New slugInvalidV []) [] [("a", "1")] ""
      (.leaf "x")).2.2.2.1 rfl,
   (enrichment_receiver_frame c4Step1.1 c4Step1.2 [("b", "2")] ""
      (.leaf "x")).2.2.2.2 0 rfl (by decide)⟩

/-- C5. A Typed Error built with `New` keeps its classification through any
number of generic `fmt.Errorf("...: %w", ·)` wrapping layers: `SlugFromErr`
recovers the original slug; and in general, whenever an `Err` exists anywhere
in the unwrap chain, the walk finds one and `SlugFromErr` returns that
`Err`'s slug field rather than the `SlugUnknown` fallback. -/
theorem SlugFromErr_chain_walk :
    (∀ (pres : List String) (s : SlugV) (d : List String),
      SlugFromErr (some (pres.foldr GoError.wrapf ((New s d).toErr))) =
        some s) ∧
    (∀ g : GoError, containsErr g = true →
      ∃ e, findErrG g = some e ∧ SlugFromErr (some g) = e.slug) := by
  constructor
  · intro pres s d
    induction pres with
    | nil => rfl
    | cons p ps ih =>
      simp only [List.foldr_cons, SlugFromErr, findErr, findErrG] at ih ⊢
      exact ih
  · intro g hc
    have hsome := findErrG_isSome_of_containsErr g hc
    cases he : findErrG g with
    | none =>
      rw [he] at hsome
      simp at hsome
    | some e =>
      exact ⟨e, rfl, by simp [SlugFromErr, findErr, he]⟩

/-- C5 witness: five layers of generic wrapping around `New(SlugNotFound,
"x")` still extract the not-found slug, and a one-layer wrap around a
duplicate error is found by the chain walk. -/
theorem SlugFromErr_chain_walk_witness :
    SlugFromErr
        (some (["w1", "w2", "w3", "w4", "w5"].foldr GoError.wrapf
          ((New slugNotFoundV ["x"]).toErr))) = some slugNotFoundV ∧
    ∃ e, findErrG (.wrapf "q" ((New slugDuplicateV []).toErr)) = some e ∧
      SlugFromErr (some (.wrapf "q" ((New slugDuplicateV []).toErr))) =
        e.slug :=
  ⟨SlugFromErr_chain_walk.1 ["w1", "w2", "w3", "w4", "w5"] slugNotFoundV
      ["x"],
   SlugFromErr_chain_walk.2 (.wrapf "q" ((New slugDuplicateV []).toErr)) rfl⟩

/-- C6. Normalization is idempotent: feeding the result of `NewFromError`
back into `NewFromError` returns the very same `Err` — the chain walk matches
the `Err` value at the top immediately, so classification, detail, cause and
params are all unchanged. -/
theorem NewFromError_idempotent (err : Option GoError) :
    NewFromError (some ((NewFromError err).toErr)) = NewFromError err := by
  show getErr (some ((getErr err).toErr)) = getErr err
  have h : findErr (some ((getErr err).toErr)) = some (getErr err) := by
    simp [findErr, findErrG_toErr]
  cases hf : findErr err with
  | some e =>
    simp only [getErr, hf] at h ⊢
    rw [h]
  | none =>
    simp only [getErr, hf] at h ⊢
    rw [h]

/-- C8. `Err.Error()` renders the cause's message alone when the detail is
empty and `cause.Error() + ": " + detail` otherwise; in particular
`New(SlugNotFound, "a", "b")` renders as `"not-found: a: b"` (the detail
parts are joined with `": "` and the initial cause is the slug itself). -/
theorem Error_rendering :
    (∀ (e : ErrV) (c : GoError) (m : String), e.cause = some c →
      goMsg c = some m →
      e.Error = some (if e.details = "" then m else m ++ ": " ++ e.details)) ∧
    (New slugNotFoundV ["a", "b"]).Error = some "not-found: a: b" := by
  constructor
  · intro e c m hc hm
    cases e with
    | mk s cause d p =>
      simp only at hc
      subst hc
      simp [ErrV.Error, ErrV.toErr, goMsg, hm]
  · decide

/-- C8 witness: the rendering law applied at `New(SlugNotFound, "a", "b")`
with its cause (the slug itself) and the cause's message. -/
theorem Error_rendering_witness :
    (New slugNotFoundV ["a", "b"]).Error =
      some (if (New slugNotFoundV ["a", "b"]).details = "" then "not-found"
            else "not-found" ++ ": " ++ (New slugNotFoundV ["a", "b"]).details) :=
  Error_rendering.1 (New slugNotFoundV ["a", "b"]) (.slugErr slugNotFoundV)
    "not-found" rfl rfl

/-- C9. When no `Err` is found in the chain, every extraction function
returns its documented fallback: `SlugFromErr` the `SlugUnknown`
classification, `DetailFromErr` the literal `"unknown error"`, and
`ParamsFromErr` a nil map — all total functions, no failure path. -/
theorem extraction_fallbacks (err : Option GoError)
    (hnf : findErr err = none) :
    SlugFromErr err = some slugUnknownV ∧
    DetailFromErr err = "unknown error" ∧ ParamsFromErr err = none := by
  simp [SlugFromErr, DetailFromErr, ParamsFromErr, hnf]

/-- C9 witness: the fallbacks at an opaque third-party error. -/
theorem extraction_fallbacks_witness :
    SlugFromErr (some (.leaf "boom")) = some slugUnknownV ∧
    DetailFromErr (some (.leaf "boom")) = "unknown error" ∧
    ParamsFromErr (some (.leaf "boom")) = none :=
  extraction_fallbacks (some (.leaf "boom")) rfl

/-- C7. For every error, instance URI, iteration order and optional problem
type, `ProblemJSON` always carries the keys `type`, `title`, `status` and
`instance`; it carries `detail` exactly when the extracted detail is
non-empty and `params` exactly when the extracted parameter content is
non-empty; and with no explicit problem type the `type` value is the
`"about:blank"` default. -/
theorem ProblemJSON_field_presence (order : List (SlugType × Nat)) (h : Heap)
    (err : Option GoError) (inst : String) (ty : List String) :
    mapContainsKey (ProblemJSON order h err inst ty) "type" = true ∧
    mapContainsKey (ProblemJSON order h err inst ty) "title" = true ∧
    mapContainsKey (ProblemJSON order h err inst ty) "status" = true ∧
    mapContainsKey (ProblemJSON order h err inst ty) "instance" = true ∧
    (mapContainsKey (ProblemJSON order h err inst ty) "detail" = true ↔
      DetailFromErr err ≠ "") ∧
    (mapContainsKey (ProblemJSON order h err inst ty) "params" = true ↔
      0 < (paramsContent h (ParamsFromErr err)).length) ∧
    mapLookup (ProblemJSON order h err inst []) "type" =
      some (.ofType BlankType) := by
  by_cases hd : DetailFromErr err = "" <;>
    by_cases hp : 0 < (paramsContent h (ParamsFromErr err)).length <;>
    simp [ProblemJSON, mapContainsKey, mapLookup, hd, hp]

/-- The concrete input for the C10 counterexample: a generic wrapper around a
`*validator.InvalidValidationError`, e.g.
`fmt.Errorf("ctx: %w", invalidValidationErr)`. -/
def c10Wrapped : Option GoError :=
  some (.wrapf "ctx" (.invalidValidationE "boom"))

/-- C10 counterexample. The claim states `NewFromValidator` returns normally
only when the input itself is a `*validator.InvalidValidationError` or a
`validator.ValidationErrors` value. Refuted: the first branch uses
`errors.As`, which walks the unwrap chain, so a generic wrapper around a
`*validator.InvalidValidationError` — dynamically neither of the two types —
still returns normally (an Invalid-classified `Err`) instead of reaching the
panicking type assertion. -/
theorem NewFromValidator_counterexample :
    (NewFromValidator c10Wrapped none []).isSome = true ∧
    ((NewFromValidator c10Wrapped none []).map (fun r => r.1.slug)) =
      some (some slugInvalidV) ∧
    topIsInvalidValidationVal c10Wrapped = false ∧
    topIsValidationErrorsVal c10Wrapped = false :=
  ⟨rfl, rfl, rfl, rfl⟩

/-- C10 amended: `NewFromValidator` returns normally exactly when a
`*validator.InvalidValidationError` is found anywhere in the input's unwrap
chain (the `errors.As` branch) or the input's dynamic type is
`validator.ValidationErrors` (the type assertion); on every other input —
nil included — the unchecked assertion panics. -/
theorem NewFromValidator_panic_iff (err : Option GoError)
    (tr : Option (FieldError → String)) (h : Heap) :
    (NewFromValidator err tr h).isSome =
      (asInvalidValidationO err || topIsValidationErrorsVal err) := by
  cases err with
  | none => rfl
  | some g =>
    cases g <;>
      simp [NewFromValidator, asInvalidValidationO, asInvalidValidation,
        topIsValidationErrorsVal, apply_ite, Bool.or_false]

end Errs
